import Mathlib

/-!
Shallow embedding of the compiled-module file cache
(packages/vm/src/modules/file_system_cache.rs) together with the
filesystem state it acts on.  Filesystem effects are modelled by explicit
state passing over a `FileSystem` record; machine integers are `Nat`
(the usize upper bound is an explicit parameter where overflow matters);
fallible operations return `Except`.  External collaborators (the wasmer
engine's serializer/deserializer) are abstracted as an `Engine` record,
exactly at the interface the spec gives for them.
-/

namespace CosmwasmVm

/-- Raw byte sequences: file contents and serialized artifacts. -/
abbrev Bytes := List Nat

/-- A filesystem path, represented as its list of path segments. -/
abbrev Path := List String

/-- The io error kinds the cache code distinguishes (`err.kind()`):
`NotFound` is special-cased, everything else is treated uniformly. -/
inductive IoErrorKind where
  | notFound
  | permissionDenied
  | other
deriving DecidableEq

/-- An operating-system io error: a kind plus the platform-specific
display text that formatting the error with `{}` produces. -/
structure IoError where
  kind : IoErrorKind
  msg : String
deriving DecidableEq

/-- Modelled from the spec: `VmError::cache_err` (crate::errors, not under
src/) wraps a message string into a generic cache error value. -/
inductive VmError where
  | cacheErr (msg : String)
deriving DecidableEq

/-- Result type of the cache operations, as in the source. -/
abbrev VmResult (α : Type) := Except VmError α

/-- Modelled from the spec: a content checksum (crate::checksum, not under
src/) is a byte sequence over which only the lowercase-hex rendering is
used by this core. -/
structure Checksum where
  bytes : Bytes
deriving DecidableEq

/-- Lowercase hex digit character for a value below 16. -/
def hexChar (n : Nat) : Char :=
  if n < 10 then Char.ofNat (48 + n) else Char.ofNat (87 + n)

/-- Modelled from the spec: `Checksum::to_hex`, the lowercase hexadecimal
rendering of the checksum, two digits per byte, most significant digit
first; it is the filename of a cache entry. -/
def Checksum.to_hex (c : Checksum) : String :=
  ⟨(c.bytes.map (fun b => [hexChar (b / 16 % 16), hexChar (b % 16)])).flatten⟩

/-- Decimal digit character for a value below 10. -/
def decDigitChar (r : Nat) : Char := Char.ofNat (48 + r)

/-- Fuelled base-10 digit rendering; fuel keeps the recursion structural,
hence kernel-reducible.  Called with fuel above the number, as
`natDecChars` does, the fuel never runs out. -/
def natDecCharsFuel : Nat → Nat → List Char
  | 0, _ => []
  | fuel + 1, n =>
    if n < 10 then [decDigitChar n]
    else natDecCharsFuel fuel (n / 10) ++ [decDigitChar (n % 10)]

/-- Base-10 digit list of a natural number, most significant first. -/
def natDecChars (n : Nat) : List Char := natDecCharsFuel (n + 1) n

/-- Decimal rendering of a natural number, as the Display formatting of
the u32 wasmer module version produces inside `format!`. -/
def natToDecimal (n : Nat) : String := ⟨natDecChars n⟩

/-- The module serialization format version; `"v4"` in this source. -/
def MODULE_SERIALIZATION_VERSION : String := "v4"

/-- Name of the versioned subdirectory, the rendering of
`format!("{}-wasmer{}", serialization_version, wasmer_module_version)`. -/
def versionTag (sv : String) (wv : Nat) : String :=
  sv ++ "-wasmer" ++ natToDecimal wv

/-- The filesystem state the cache operates on: file contents per path,
a set of directories, and injected fault behavior per path for each kind
of syscall (a fault carries the io error the syscall would produce). -/
structure FileSystem where
  files : Path → Option Bytes
  dirs : Path → Bool
  readFault : Path → Option IoError
  writeFault : Path → Option IoError
  removeFault : Path → Option IoError
  statFault : Path → Option IoError
  mkdirFault : Path → Option IoError

/-- Opening and reading a file: a missing file yields a NotFound io
error; an injected read fault yields that fault; otherwise the bytes.
Reads never change the filesystem. -/
def readFile (fs : FileSystem) (p : Path) : Except IoError Bytes × FileSystem :=
  match fs.files p with
  | none => (.error ⟨.notFound, "entity not found"⟩, fs)
  | some bytes =>
    match fs.readFault p with
    | some e => (.error e, fs)
    | none => (.ok bytes, fs)

/-- Writing a file: an injected write fault yields that fault and leaves
the state unchanged; otherwise the content at the path is replaced. -/
def writeFile (fs : FileSystem) (p : Path) (bytes : Bytes) :
    Except IoError Unit × FileSystem :=
  match fs.writeFault p with
  | some e => (.error e, fs)
  | none =>
    (.ok (), { fs with files := fun q => if q = p then some bytes else fs.files q })

/-- Deleting a file (`fs::remove_file`): an injected fault yields that
fault and leaves the state unchanged; otherwise the entry disappears. -/
def removeFileAt (fs : FileSystem) (p : Path) : Except IoError Unit × FileSystem :=
  match fs.removeFault p with
  | some e => (.error e, fs)
  | none =>
    (.ok (), { fs with files := fun q => if q = p then none else fs.files q })

/-- Retrieving a file's metadata length (`path.metadata().len()`): an
injected stat fault yields that fault; a missing file yields NotFound;
otherwise the byte length of the content.  Reads never change the
filesystem. -/
def statLen (fs : FileSystem) (p : Path) : Except IoError Nat × FileSystem :=
  match fs.statFault p with
  | some e => (.error e, fs)
  | none =>
    match fs.files p with
    | some bytes => (.ok bytes.length, fs)
    | none => (.error ⟨.notFound, "entity not found"⟩, fs)

/-- Modelled from the spec: `mkdir_p` (crate::filesystem, not under src/)
ensures the directory exists, creating it when missing; an injected fault
yields that fault.  Only the target directory itself is tracked. -/
def mkdirP (fs : FileSystem) (p : Path) : Except IoError Unit × FileSystem :=
  match fs.mkdirFault p with
  | some e => (.error e, fs)
  | none =>
    (.ok (), { fs with dirs := fun q => if q = p then true else fs.dirs q })

/-- The engine's serializer and deserializer, consumed as external
collaborator interfaces exactly as the spec lists them:
`serialize(artifact) -> bytes` and
`deserialize(bytes) -> Artifact | DecodeError`. -/
structure Engine (A : Type) where
  serialize : A → Bytes
  deserialize : Bytes → Except String A

/-- Wasmer's DeserializeError as the cache observes it: an io error from
opening or reading the file, or a structural decode failure. -/
inductive DeserializeError where
  | io (err : IoError)
  | decode (msg : String)
deriving DecidableEq

/-- `Module::deserialize_from_file`: open and read the file at the path,
then structurally decode the bytes with the engine. -/
def deserializeFromFile {A : Type} (eng : Engine A) (fs : FileSystem) (p : Path) :
    Except DeserializeError A × FileSystem :=
  match readFile fs p with
  | (.error e, fs1) => (.error (.io e), fs1)
  | (.ok bytes, fs1) =>
    match eng.deserialize bytes with
    | .error msg => (.error (.decode msg), fs1)
    | .ok a => (.ok a, fs1)

/-- Representation of a directory that contains compiled Wasm artifacts:
the base path plus the version data resolved at construction.  The
serialization version is a compile-time constant in the source; carrying
it in the handle models instances coming from different builds. -/
structure FileSystemCache where
  base_path : Path
  module_serialization_version : String
  wasmer_module_version : Nat
deriving DecidableEq

/-- An error type that hides system specific error information to ensure
deterministic errors across operating systems. -/
inductive NewFileSystemCacheError where
  | couldntGetMetadata
  | readonlyPath
  | existsButNoDirectory
  | couldntCreatePath
deriving DecidableEq

/-- Metadata of an existing path as construction inspects it. -/
structure PathMetadata where
  is_dir : Bool
  readonly : Bool
deriving DecidableEq

/-- State of the target path at construction time: absent (with the
outcome creating it would have), present but with metadata unavailable,
or present with readable metadata. -/
inductive PathState where
  | absent (mkdirOk : Bool)
  | presentStatFail
  | present (meta : PathMetadata)
deriving DecidableEq

/-- `FileSystemCache::new`: validate the target path and produce the
handle, storing the base path and the version data resolved from the
running engine (`current_wasmer_module_version`, passed in here). -/
def FileSystemCache.new (wasmer_module_version : Nat) (path : Path)
    (st : PathState) : Except NewFileSystemCacheError FileSystemCache :=
  match st with
  | .present meta =>
    if meta.is_dir then
      if !meta.readonly then
        .ok ⟨path, MODULE_SERIALIZATION_VERSION, wasmer_module_version⟩
      else
        .error .readonlyPath
    else
      .error .existsButNoDirectory
  | .presentStatFail => .error .couldntGetMetadata
  | .absent mkdirOk =>
    if mkdirOk then
      .ok ⟨path, MODULE_SERIALIZATION_VERSION, wasmer_module_version⟩
    else
      .error .couldntCreatePath

/-- The path to the latest version of the modules:
base path joined with the version tag directory. -/
def FileSystemCache.latest_modules_path (c : FileSystemCache) : Path :=
  c.base_path ++ [versionTag c.module_serialization_version c.wasmer_module_version]

/-- The full path of the cache entry for a checksum:
the versioned directory joined with the hex filename. -/
def FileSystemCache.module_path (c : FileSystemCache) (checksum : Checksum) : Path :=
  c.latest_modules_path ++ [checksum.to_hex]

/-- `estimate_module_size`: the on-disk byte length of the module file.
A metadata failure maps to a fixed cache error; a length that does not
fit in usize makes `try_into().expect(...)` panic, modelled as the outer
`Except.error` with the panic message. -/
def estimate_module_size (usizeMax : Nat) (fs : FileSystem) (p : Path) :
    Except String (VmResult Nat) × FileSystem :=
  match statLen fs p with
  | (.error _, fs1) =>
    (.ok (.error (VmError.cacheErr ("Error getting file metadata"))), fs1)
  | (.ok len, fs1) =>
    if len ≤ usizeMax then (.ok (.ok len), fs1)
    else (.error ("Could not convert file size to usize"), fs1)

/-- `FileSystemCache::load`: deserialize the module from the entry file;
a NotFound io error is the cache miss (`Ok(None)`); any other io error
and any decode error become cache errors carrying the formatted
underlying error; on success the estimated size is attached. -/
def FileSystemCache.load {A : Type} (c : FileSystemCache) (eng : Engine A)
    (usizeMax : Nat) (checksum : Checksum) (fs : FileSystem) :
    Except String (VmResult (Option (A × Nat))) × FileSystem :=
  let file_path := c.module_path checksum
  match deserializeFromFile eng fs file_path with
  | (.ok module, fs1) =>
    match estimate_module_size usizeMax fs1 file_path with
    | (.error panicMsg, fs2) => (.error panicMsg, fs2)
    | (.ok (.error e), fs2) => (.ok (.error e), fs2)
    | (.ok (.ok module_size), fs2) => (.ok (.ok (some (module, module_size))), fs2)
  | (.error (.io err), fs1) =>
    match err.kind with
    | .notFound => (.ok (.ok none), fs1)
    | _ =>
      (.ok (.error (VmError.cacheErr (("Error opening module file: ") ++ err.msg))), fs1)
  | (.error (.decode msg), fs1) =>
    (.ok (.error (VmError.cacheErr (("Error deserializing module: ") ++ msg))), fs1)

/-- `FileSystemCache::store`: ensure the versioned directory exists,
serialize the module to the entry file (overwriting), and return the
estimated size of the file just written. -/
def FileSystemCache.store {A : Type} (c : FileSystemCache) (eng : Engine A)
    (usizeMax : Nat) (checksum : Checksum) (module : A) (fs : FileSystem) :
    Except String (VmResult Nat) × FileSystem :=
  let modules_dir := c.latest_modules_path
  match mkdirP fs modules_dir with
  | (.error _, fs1) =>
    (.ok (.error (VmError.cacheErr ("Error creating modules directory"))), fs1)
  | (.ok _, fs1) =>
    let path := c.module_path checksum
    match writeFile fs1 path (eng.serialize module) with
    | (.error e, fs2) =>
      (.ok (.error (VmError.cacheErr (("Error writing module to disk: ") ++ e.msg))), fs2)
    | (.ok _, fs2) =>
      match estimate_module_size usizeMax fs2 path with
      | (.error panicMsg, fs3) => (.error panicMsg, fs3)
      | (.ok r, fs3) => (.ok r, fs3)

/-- `FileSystemCache::remove`: if the entry file exists delete it and
return true (a deletion failure is a fixed cache error); otherwise
return false. -/
def FileSystemCache.remove (c : FileSystemCache) (checksum : Checksum)
    (fs : FileSystem) : VmResult Bool × FileSystem :=
  let file_path := c.module_path checksum
  if (fs.files file_path).isSome then
    match removeFileAt fs file_path with
    | (.error _, fs1) =>
      (.error (VmError.cacheErr ("Error deleting module from disk")), fs1)
    | (.ok _, fs1) => (.ok true, fs1)
  else
    (.ok false, fs)

/-- Decimal digit test on characters, used to analyse the version tag. -/
def isDigitChar (c : Char) : Bool :=
  decide (48 ≤ c.toNat) && decide (c.toNat ≤ 57)

/-- Value of a digit list read left to right on top of an accumulator. -/
def decValAux : Nat → List Char → Nat
  | acc, [] => acc
  | acc, ch :: rest => decValAux (acc * 10 + (ch.toNat - 48)) rest

/-- The maximal digit suffix of a character list. -/
def digitsSuffix (l : List Char) : List Char :=
  (l.reverse.takeWhile isDigitChar).reverse

/-- A concrete engine over `Nat` artifacts whose deserializer is a left
inverse of its serializer, for concrete instantiations. -/
def engNat : Engine Nat where
  serialize := fun n => [n]
  deserialize := fun b =>
    match b with
    | [k] => .ok k
    | _ => .error ("invalid module bytes")

/-- A fault-free empty filesystem. -/
def emptyFs : FileSystem where
  files := fun _ => none
  dirs := fun _ => false
  readFault := fun _ => none
  writeFault := fun _ => none
  removeFault := fun _ => none
  statFault := fun _ => none
  mkdirFault := fun _ => none

/-- A concrete cache handle for concrete instantiations. -/
def cW : FileSystemCache := ⟨["base"], MODULE_SERIALIZATION_VERSION, 1⟩

/-- A concrete one-byte checksum. -/
def chkW : Checksum := ⟨[171]⟩

/-- A second concrete checksum, distinct from `chkW`. -/
def chkW2 : Checksum := ⟨[5]⟩

/-- The usize bound of a 64-bit platform. -/
def uMaxW : Nat := 2 ^ 64 - 1

/-- A filesystem holding one entry file for `cW`/`chkW`. -/
def fsFile : FileSystem :=
  { emptyFs with
    files := fun q => if q = cW.module_path chkW then some ([7] : Bytes) else none }

/-- The entry file present but opening it fails with a permission error
whose platform text is the given message. -/
def fsPerm (m : String) : FileSystem :=
  { fsFile with
    readFault := fun q =>
      if q = cW.module_path chkW then some ⟨.permissionDenied, m⟩ else none }

/-- The entry file present but deleting it fails with an io error whose
platform text is the given message. -/
def fsDel (m : String) : FileSystem :=
  { fsFile with
    removeFault := fun q =>
      if q = cW.module_path chkW then some ⟨.other, m⟩ else none }

section Lemmas

variable {A : Type} (c : FileSystemCache) (eng : Engine A) (u : Nat)
  (chk : Checksum) (fs : FileSystem) (b : Bytes) (a : A)

/-- Missing entry file: load is the cache miss and leaves the state. -/
theorem load_miss (hf : fs.files (c.module_path chk) = none) :
    c.load eng u chk fs = (.ok (.ok none), fs) := by
  simp [FileSystemCache.load, deserializeFromFile, readFile, hf]

/-- Successful hit: load returns the decoded artifact and the byte
length of the entry file, leaving the state. -/
theorem load_hit (hb : fs.files (c.module_path chk) = some b)
    (hr : fs.readFault (c.module_path chk) = none)
    (hd : eng.deserialize b = .ok a)
    (hs : fs.statFault (c.module_path chk) = none)
    (hfit : b.length ≤ u) :
    c.load eng u chk fs = (.ok (.ok (some (a, b.length))), fs) := by
  simp [FileSystemCache.load, deserializeFromFile, readFile,
    estimate_module_size, statLen, hb, hr, hd, hs, hfit]

/-- Read fault other than NotFound: load is a cache error embedding the
formatted io error text. -/
theorem load_openFail (e : IoError) (hb : fs.files (c.module_path chk) = some b)
    (hr : fs.readFault (c.module_path chk) = some e)
    (hk : e.kind ≠ .notFound) :
    c.load eng u chk fs =
      (.ok (.error (VmError.cacheErr (("Error opening module file: ") ++ e.msg))), fs) := by
  obtain ⟨k, m⟩ := e
  cases k with
  | notFound => exact absurd rfl hk
  | permissionDenied =>
    simp [FileSystemCache.load, deserializeFromFile, readFile, hb, hr]
  | other =>
    simp [FileSystemCache.load, deserializeFromFile, readFile, hb, hr]

/-- Read fault of kind NotFound: load is the cache miss. -/
theorem load_faultNotFound (e : IoError)
    (hb : fs.files (c.module_path chk) = some b)
    (hr : fs.readFault (c.module_path chk) = some e)
    (hk : e.kind = .notFound) :
    c.load eng u chk fs = (.ok (.ok none), fs) := by
  obtain ⟨k, m⟩ := e
  cases hk
  simp [FileSystemCache.load, deserializeFromFile, readFile, hb, hr]

/-- Structural decode failure: load is a cache error embedding the
decode error message. -/
theorem load_decodeFail (m : String)
    (hb : fs.files (c.module_path chk) = some b)
    (hr : fs.readFault (c.module_path chk) = none)
    (hd : eng.deserialize b = .error m) :
    c.load eng u chk fs =
      (.ok (.error (VmError.cacheErr (("Error deserializing module: ") ++ m))), fs) := by
  simp [FileSystemCache.load, deserializeFromFile, readFile, hb, hr, hd]

/-- Metadata failure after a successful decode: load is the fixed
metadata cache error. -/
theorem load_statFail (e : IoError)
    (hb : fs.files (c.module_path chk) = some b)
    (hr : fs.readFault (c.module_path chk) = none)
    (hd : eng.deserialize b = .ok a)
    (hs : fs.statFault (c.module_path chk) = some e) :
    c.load eng u chk fs =
      (.ok (.error (VmError.cacheErr ("Error getting file metadata"))), fs) := by
  simp [FileSystemCache.load, deserializeFromFile, readFile,
    estimate_module_size, statLen, hb, hr, hd, hs]

/-- Entry file length beyond the usize bound: load panics. -/
theorem load_panic
    (hb : fs.files (c.module_path chk) = some b)
    (hr : fs.readFault (c.module_path chk) = none)
    (hd : eng.deserialize b = .ok a)
    (hs : fs.statFault (c.module_path chk) = none)
    (hbig : ¬ b.length ≤ u) :
    c.load eng u chk fs = (.error ("Could not convert file size to usize"), fs) := by
  simp [FileSystemCache.load, deserializeFromFile, readFile,
    estimate_module_size, statLen, hb, hr, hd, hs, hbig]

/-- Load leaves the filesystem untouched, in every branch. -/
theorem load_snd : (c.load eng u chk fs).2 = fs := by
  cases hb : fs.files (c.module_path chk) with
  | none => rw [load_miss c eng u chk fs hb]
  | some b =>
    cases hr : fs.readFault (c.module_path chk) with
    | some e =>
      cases hk : e.kind with
      | notFound => rw [load_faultNotFound c eng u chk fs b e hb hr hk]
      | permissionDenied => rw [load_openFail c eng u chk fs b e hb hr (by rw [hk]; intro h; cases h)]
      | other => rw [load_openFail c eng u chk fs b e hb hr (by rw [hk]; intro h; cases h)]
    | none =>
      cases hd : eng.deserialize b with
      | error m => rw [load_decodeFail c eng u chk fs b m hb hr hd]
      | ok a =>
        cases hs : fs.statFault (c.module_path chk) with
        | some e => rw [load_statFail c eng u chk fs b a e hb hr hd hs]
        | none =>
          by_cases hfit : b.length ≤ u
          · rw [load_hit c eng u chk fs b a hb hr hd hs hfit]
          · rw [load_panic c eng u chk fs b a hb hr hd hs hfit]

/-- Mkdir failure: store is the fixed directory-creation cache error and
the state is untouched. -/
theorem store_mkdirFail (e : IoError)
    (hm : fs.mkdirFault c.latest_modules_path = some e) :
    c.store eng u chk a fs =
      (.ok (.error (VmError.cacheErr ("Error creating modules directory"))), fs) := by
  simp [FileSystemCache.store, mkdirP, hm]

/-- Write failure: store is a cache error embedding the formatted write
error text, and only the directory set has changed. -/
theorem store_writeFail (e : IoError)
    (hm : fs.mkdirFault c.latest_modules_path = none)
    (hw : fs.writeFault (c.module_path chk) = some e) :
    c.store eng u chk a fs =
      (.ok (.error (VmError.cacheErr (("Error writing module to disk: ") ++ e.msg))),
       { fs with dirs := fun q => if q = c.latest_modules_path then true else fs.dirs q }) := by
  simp [FileSystemCache.store, mkdirP, writeFile, hm, hw]

/-- Successful store: the result is the byte length of the serialized
module, the entry file holds exactly the serialized bytes, and only
that file plus the versioned directory have changed. -/
theorem store_ok
    (hm : fs.mkdirFault c.latest_modules_path = none)
    (hw : fs.writeFault (c.module_path chk) = none)
    (hs : fs.statFault (c.module_path chk) = none)
    (hfit : (eng.serialize a).length ≤ u) :
    c.store eng u chk a fs =
      (.ok (.ok (eng.serialize a).length),
       { fs with
         dirs := fun q => if q = c.latest_modules_path then true else fs.dirs q,
         files := fun q =>
           if q = c.module_path chk then some (eng.serialize a) else fs.files q }) := by
  simp [FileSystemCache.store, mkdirP, writeFile, estimate_module_size, statLen, hm, hw, hs,
    hfit]

/-- Metadata failure right after the write: store surfaces the fixed
metadata cache error. -/
theorem store_statFail (e : IoError)
    (hm : fs.mkdirFault c.latest_modules_path = none)
    (hw : fs.writeFault (c.module_path chk) = none)
    (hs : fs.statFault (c.module_path chk) = some e) :
    (c.store eng u chk a fs).1 =
      .ok (.error (VmError.cacheErr ("Error getting file metadata"))) := by
  simp [FileSystemCache.store, mkdirP, writeFile, estimate_module_size, statLen, hm, hw, hs]

/-- Serialized size beyond the usize bound: store panics rather than
returning a cache error. -/
theorem store_panic
    (hm : fs.mkdirFault c.latest_modules_path = none)
    (hw : fs.writeFault (c.module_path chk) = none)
    (hs : fs.statFault (c.module_path chk) = none)
    (hbig : ¬ (eng.serialize a).length ≤ u) :
    (c.store eng u chk a fs).1 = .error ("Could not convert file size to usize") := by
  simp [FileSystemCache.store, mkdirP, writeFile, estimate_module_size, statLen, hm, hw, hs,
    hbig]

/-- In every branch, the state after store is the original one, possibly
with the versioned directory added, possibly also with the entry file
replaced; nothing else ever changes. -/
theorem store_state_cases :
    (c.store eng u chk a fs).2 = fs ∨
    (c.store eng u chk a fs).2 =
      { fs with dirs := fun q => if q = c.latest_modules_path then true else fs.dirs q } ∨
    (c.store eng u chk a fs).2 =
      { fs with
        dirs := fun q => if q = c.latest_modules_path then true else fs.dirs q,
        files := fun q =>
          if q = c.module_path chk then some (eng.serialize a) else fs.files q } := by
  cases hm : fs.mkdirFault c.latest_modules_path with
  | some e => left; rw [store_mkdirFail c eng u chk fs a e hm]
  | none =>
    cases hw : fs.writeFault (c.module_path chk) with
    | some e => right; left; rw [store_writeFail c eng u chk fs a e hm hw]
    | none =>
      right; right
      cases hs : fs.statFault (c.module_path chk) with
      | some e =>
        simp [FileSystemCache.store, mkdirP, writeFile, estimate_module_size, statLen,
          hm, hw, hs]
      | none =>
        by_cases hfit : (eng.serialize a).length ≤ u
        · simp [FileSystemCache.store, mkdirP, writeFile, estimate_module_size, statLen,
            hm, hw, hs, hfit]
        · simp [FileSystemCache.store, mkdirP, writeFile, estimate_module_size, statLen,
            hm, hw, hs, hfit]

/-- Store never touches files other than the entry file of the stored
checksum, and never touches any fault behavior. -/
theorem store_frame :
    (∀ q, q ≠ c.module_path chk → (c.store eng u chk a fs).2.files q = fs.files q) ∧
    (c.store eng u chk a fs).2.readFault = fs.readFault ∧
    (c.store eng u chk a fs).2.writeFault = fs.writeFault ∧
    (c.store eng u chk a fs).2.removeFault = fs.removeFault ∧
    (c.store eng u chk a fs).2.statFault = fs.statFault ∧
    (c.store eng u chk a fs).2.mkdirFault = fs.mkdirFault := by
  rcases store_state_cases c eng u chk fs a with h | h | h <;> rw [h] <;>
    refine ⟨fun q hq => ?_, rfl, rfl, rfl, rfl, rfl⟩ <;> simp [hq]

/-- After a successful directory creation and write, the state after
store is exactly the old one with the versioned directory added and the
entry file holding the serialized bytes, whatever the estimation does. -/
theorem store_snd_write_ok
    (hm : fs.mkdirFault c.latest_modules_path = none)
    (hw : fs.writeFault (c.module_path chk) = none) :
    (c.store eng u chk a fs).2 =
      { fs with
        dirs := fun q => if q = c.latest_modules_path then true else fs.dirs q,
        files := fun q =>
          if q = c.module_path chk then some (eng.serialize a) else fs.files q } := by
  cases hs : fs.statFault (c.module_path chk) with
  | some e =>
    simp [FileSystemCache.store, mkdirP, writeFile, estimate_module_size, statLen,
      hm, hw, hs]
  | none =>
    by_cases hfit : (eng.serialize a).length ≤ u
    · simp [FileSystemCache.store, mkdirP, writeFile, estimate_module_size, statLen,
        hm, hw, hs, hfit]
    · simp [FileSystemCache.store, mkdirP, writeFile, estimate_module_size, statLen,
        hm, hw, hs, hfit]

/-- Absent entry: remove reports false and leaves the state untouched. -/
theorem remove_absent (hf : fs.files (c.module_path chk) = none) :
    c.remove chk fs = (.ok false, fs) := by
  simp [FileSystemCache.remove, hf]

/-- Present entry, deletion succeeds: remove reports true and exactly the
entry file disappears. -/
theorem remove_ok (hf : fs.files (c.module_path chk) = some b)
    (hd : fs.removeFault (c.module_path chk) = none) :
    c.remove chk fs =
      (.ok true,
       { fs with files := fun q => if q = c.module_path chk then none else fs.files q }) := by
  simp [FileSystemCache.remove, removeFileAt, hf, hd]

/-- Present entry, deletion fails: remove is the fixed deletion cache
error, independent of the io error, and the state is untouched. -/
theorem remove_fail (e : IoError) (hf : fs.files (c.module_path chk) = some b)
    (hd : fs.removeFault (c.module_path chk) = some e) :
    c.remove chk fs =
      (.error (VmError.cacheErr ("Error deleting module from disk")), fs) := by
  simp [FileSystemCache.remove, removeFileAt, hf, hd]

/-- Remove never touches files other than the entry file of the removed
checksum, never touches directories, and never touches any fault
behavior. -/
theorem remove_frame :
    (∀ q, q ≠ c.module_path chk → (c.remove chk fs).2.files q = fs.files q) ∧
    (c.remove chk fs).2.dirs = fs.dirs ∧
    (c.remove chk fs).2.readFault = fs.readFault ∧
    (c.remove chk fs).2.writeFault = fs.writeFault ∧
    (c.remove chk fs).2.removeFault = fs.removeFault ∧
    (c.remove chk fs).2.statFault = fs.statFault ∧
    (c.remove chk fs).2.mkdirFault = fs.mkdirFault := by
  cases hf : fs.files (c.module_path chk) with
  | none =>
    rw [remove_absent c chk fs hf]
    exact ⟨fun q hq => rfl, rfl, rfl, rfl, rfl, rfl, rfl⟩
  | some b =>
    cases hd : fs.removeFault (c.module_path chk) with
    | some e =>
      rw [remove_fail c chk fs b e hf hd]
      exact ⟨fun q hq => rfl, rfl, rfl, rfl, rfl, rfl, rfl⟩
    | none =>
      rw [remove_ok c chk fs b hf hd]
      exact ⟨fun q hq => by simp [hq], rfl, rfl, rfl, rfl, rfl, rfl⟩

/-- The result of load depends only on the entry file path: states that
agree there on content, read fault and stat fault give equal results. -/
theorem load_frame (fs' : FileSystem)
    (h1 : fs.files (c.module_path chk) = fs'.files (c.module_path chk))
    (h2 : fs.readFault (c.module_path chk) = fs'.readFault (c.module_path chk))
    (h3 : fs.statFault (c.module_path chk) = fs'.statFault (c.module_path chk)) :
    (c.load eng u chk fs).1 = (c.load eng u chk fs').1 := by
  cases hb : fs'.files (c.module_path chk) with
  | none => rw [load_miss c eng u chk fs (h1.trans hb), load_miss c eng u chk fs' hb]
  | some b =>
    have hb1 : fs.files (c.module_path chk) = some b := h1.trans hb
    cases hr : fs'.readFault (c.module_path chk) with
    | some e =>
      have hr1 : fs.readFault (c.module_path chk) = some e := h2.trans hr
      cases hk : e.kind with
      | notFound =>
        rw [load_faultNotFound c eng u chk fs b e hb1 hr1 hk,
          load_faultNotFound c eng u chk fs' b e hb hr hk]
      | permissionDenied =>
        rw [load_openFail c eng u chk fs b e hb1 hr1 (by simp [hk]),
          load_openFail c eng u chk fs' b e hb hr (by simp [hk])]
      | other =>
        rw [load_openFail c eng u chk fs b e hb1 hr1 (by simp [hk]),
          load_openFail c eng u chk fs' b e hb hr (by simp [hk])]
    | none =>
      have hr1 : fs.readFault (c.module_path chk) = none := h2.trans hr
      cases hd : eng.deserialize b with
      | error m =>
        rw [load_decodeFail c eng u chk fs b m hb1 hr1 hd,
          load_decodeFail c eng u chk fs' b m hb hr hd]
      | ok a =>
        cases hs : fs'.statFault (c.module_path chk) with
        | some e =>
          rw [load_statFail c eng u chk fs b a e hb1 hr1 hd (h3.trans hs),
            load_statFail c eng u chk fs' b a e hb hr hd hs]
        | none =>
          by_cases hfit : b.length ≤ u
          · rw [load_hit c eng u chk fs b a hb1 hr1 hd (h3.trans hs) hfit,
              load_hit c eng u chk fs' b a hb hr hd hs hfit]
          · rw [load_panic c eng u chk fs b a hb1 hr1 hd (h3.trans hs) hfit,
              load_panic c eng u chk fs' b a hb hr hd hs hfit]

/-- Character value of a decimal digit character. -/
theorem decDigitChar_toNat : ∀ r, r < 10 → (decDigitChar r).toNat = 48 + r := by
  decide

/-- Decimal digit characters pass the digit test. -/
theorem isDigitChar_decDigitChar : ∀ r, r < 10 → isDigitChar (decDigitChar r) = true := by
  decide

/-- Every character the fuelled renderer produces is a decimal digit. -/
theorem natDecCharsFuel_digits :
    ∀ fuel n, ∀ ch ∈ natDecCharsFuel fuel n, isDigitChar ch = true := by
  intro fuel
  induction fuel with
  | zero => intro n ch h; simp [natDecCharsFuel] at h
  | succ f ih =>
    intro n ch h
    by_cases h10 : n < 10
    · rw [natDecCharsFuel, if_pos h10] at h
      simp only [List.mem_singleton] at h
      subst h
      exact isDigitChar_decDigitChar n h10
    · rw [natDecCharsFuel, if_neg h10] at h
      rcases List.mem_append.mp h with h' | h'
      · exact ih _ ch h'
      · simp only [List.mem_singleton] at h'
        subst h'
        exact isDigitChar_decDigitChar _ (Nat.mod_lt _ (by omega))

/-- Every character of the decimal rendering is a decimal digit. -/
theorem natDecChars_digits (n : Nat) : ∀ ch ∈ natDecChars n, isDigitChar ch = true :=
  natDecCharsFuel_digits (n + 1) n

/-- Reading a concatenation of digit lists on an accumulator. -/
theorem decValAux_append (acc : Nat) (l1 l2 : List Char) :
    decValAux acc (l1 ++ l2) = decValAux (decValAux acc l1) l2 := by
  induction l1 generalizing acc with
  | nil => rfl
  | cons ch rest ih =>
    show decValAux (acc * 10 + (ch.toNat - 48)) (rest ++ l2) =
      decValAux (decValAux (acc * 10 + (ch.toNat - 48)) rest) l2
    exact ih _

/-- Reading back the fuelled decimal rendering recovers the number. -/
theorem decValAux_natDecCharsFuel :
    ∀ fuel n acc, n < fuel →
      decValAux acc (natDecCharsFuel fuel n) =
        acc * 10 ^ (natDecCharsFuel fuel n).length + n := by
  intro fuel
  induction fuel with
  | zero => intro n acc h; omega
  | succ f ih =>
    intro n acc h
    have hstep : ∀ (m : Nat) (ch : Char), decValAux m [ch] = m * 10 + (ch.toNat - 48) :=
      fun m ch => rfl
    by_cases h10 : n < 10
    · rw [natDecCharsFuel, if_pos h10, hstep, decDigitChar_toNat n h10,
        List.length_singleton, pow_one]
      omega
    · have h2 : n / 10 < n := Nat.div_lt_self (by omega) (by omega)
      have hrec : n / 10 < f := by omega
      rw [natDecCharsFuel, if_neg h10, decValAux_append, ih _ _ hrec, hstep,
        decDigitChar_toNat _ (Nat.mod_lt _ (by omega)),
        List.length_append, List.length_singleton, pow_succ]
      have hassoc : acc * (10 ^ (natDecCharsFuel f (n / 10)).length * 10) =
          acc * 10 ^ (natDecCharsFuel f (n / 10)).length * 10 :=
        (mul_assoc _ _ _).symm
      rw [hassoc]
      omega

/-- The decimal rendering is injective. -/
theorem natDecChars_inj {m n : Nat} (h : natDecChars m = natDecChars n) : m = n := by
  have hm := decValAux_natDecCharsFuel (m + 1) m 0 (by omega)
  have hn := decValAux_natDecCharsFuel (n + 1) n 0 (by omega)
  have := congrArg (decValAux 0) h
  rw [natDecChars, natDecChars] at this
  rw [hm, hn] at this
  omega

/-- Appending distributes over string data. -/
theorem string_data_append (s t : String) : (s ++ t).data = s.data ++ t.data := rfl

/-- takeWhile passes over a block that satisfies the predicate. -/
theorem takeWhile_append_all {p : Char → Bool} (l1 l2 : List Char)
    (h : ∀ x ∈ l1, p x = true) :
    (l1 ++ l2).takeWhile p = l1 ++ l2.takeWhile p := by
  induction l1 with
  | nil => rfl
  | cons a rest ih =>
    simp only [List.cons_append, List.takeWhile_cons]
    rw [h a (by simp)]
    simp only [if_true]
    rw [ih (fun x hx => h x (by simp [hx]))]

/-- The digit suffix of a list that ends in a digit block guarded by the
non-digit character before it is exactly that block. -/
theorem digitsSuffix_append (pre d : List Char)
    (hd : ∀ ch ∈ d, isDigitChar ch = true) :
    digitsSuffix (pre ++ ('r') :: d) = d := by
  unfold digitsSuffix
  rw [List.reverse_append, List.reverse_cons, List.append_assoc]
  rw [takeWhile_append_all _ _ (fun x hx => hd x (List.mem_reverse.mp hx))]
  rw [List.singleton_append, List.takeWhile_cons]
  rw [show isDigitChar ('r') = false from by decide]
  simp

/-- The version tag rendering is injective in the pair of serialization
version and wasmer module version. -/
theorem versionTag_inj {sv1 sv2 : String} {wv1 wv2 : Nat}
    (h : versionTag sv1 wv1 = versionTag sv2 wv2) : sv1 = sv2 ∧ wv1 = wv2 := by
  have hdata := congrArg String.data h
  rw [versionTag, versionTag, string_data_append, string_data_append,
    string_data_append, string_data_append] at hdata
  have hshape : ∀ (l d : List Char),
      (l ++ "-wasmer".data) ++ d = (l ++ [('-'), ('w'), ('a'), ('s'), ('m'), ('e')]) ++ ('r') :: d := by
    intro l d
    rw [show "-wasmer".data = [('-'), ('w'), ('a'), ('s'), ('m'), ('e'), ('r')] from rfl]
    simp
  rw [hshape, hshape] at hdata
  rw [show (natToDecimal wv1).data = natDecChars wv1 from rfl,
    show (natToDecimal wv2).data = natDecChars wv2 from rfl] at hdata
  have hsuffix := congrArg digitsSuffix hdata
  rw [digitsSuffix_append _ _ (natDecChars_digits wv1),
    digitsSuffix_append _ _ (natDecChars_digits wv2)] at hsuffix
  have hwv : wv1 = wv2 := natDecChars_inj hsuffix
  refine ⟨?_, hwv⟩
  rw [hsuffix] at hdata
  have h1 := List.append_cancel_right hdata
  have h2 := List.append_cancel_right h1
  exact congrArg String.mk h2

/-- Caches over the same base path with different version data use
different versioned directories. -/
theorem latest_modules_path_ne (c1 c2 : FileSystemCache)
    (hb : c1.base_path = c2.base_path)
    (h : c1.module_serialization_version ≠ c2.module_serialization_version ∨
      c1.wasmer_module_version ≠ c2.wasmer_module_version) :
    c1.latest_modules_path ≠ c2.latest_modules_path := by
  unfold FileSystemCache.latest_modules_path
  intro heq
  rw [hb] at heq
  have hcons := List.append_cancel_left heq
  have htag : versionTag c1.module_serialization_version c1.wasmer_module_version =
      versionTag c2.module_serialization_version c2.wasmer_module_version := by
    injection hcons
  rcases versionTag_inj htag with ⟨h1, h2⟩
  rcases h with h | h
  · exact h h1
  · exact h h2

/-- Caches over the same base path with different version data use
disjoint entry files, whatever the checksums. -/
theorem module_path_ne (c1 c2 : FileSystemCache)
    (hb : c1.base_path = c2.base_path)
    (h : c1.module_serialization_version ≠ c2.module_serialization_version ∨
      c1.wasmer_module_version ≠ c2.wasmer_module_version)
    (k1 k2 : Checksum) :
    c1.module_path k1 ≠ c2.module_path k2 := by
  unfold FileSystemCache.module_path FileSystemCache.latest_modules_path
  intro heq
  rw [hb, List.append_assoc, List.append_assoc] at heq
  have hcons := List.append_cancel_left heq
  have htag : versionTag c1.module_serialization_version c1.wasmer_module_version =
      versionTag c2.module_serialization_version c2.wasmer_module_version := by
    injection hcons
  rcases versionTag_inj htag with ⟨h1, h2⟩
  rcases h with h | h
  · exact h h1
  · exact h h2

end Lemmas

/-- C1: after store(f, a) succeeds, load(f) returns Some of an artifact
observably equivalent to a (assuming the deserializer is a left inverse
of the serializer), and after a second store(f, a2) with a different
artifact, load(f) reflects a2 and not a. -/
theorem c1_round_trip_with_overwrite {A : Type} (c : FileSystemCache) (eng : Engine A)
    (u : Nat) (chk : Checksum) (a a2 : A) (fs : FileSystem)
    (hm : fs.mkdirFault c.latest_modules_path = none)
    (hw : fs.writeFault (c.module_path chk) = none)
    (hr : fs.readFault (c.module_path chk) = none)
    (hs : fs.statFault (c.module_path chk) = none)
    (hfit : (eng.serialize a).length ≤ u)
    (hfit2 : (eng.serialize a2).length ≤ u)
    (hd : eng.deserialize (eng.serialize a) = .ok a)
    (hd2 : eng.deserialize (eng.serialize a2) = .ok a2)
    (hne : a2 ≠ a) :
    (c.load eng u chk (c.store eng u chk a fs).2).1 =
      .ok (.ok (some (a, (eng.serialize a).length))) ∧
    (c.load eng u chk (c.store eng u chk a2 (c.store eng u chk a fs).2).2).1 =
      .ok (.ok (some (a2, (eng.serialize a2).length))) ∧
    (∀ s : Nat,
      (c.load eng u chk (c.store eng u chk a2 (c.store eng u chk a fs).2).2).1 ≠
        .ok (.ok (some (a, s)))) := by
  have hsnd1 := store_snd_write_ok c eng u chk fs a hm hw
  have hb1 : (c.store eng u chk a fs).2.files (c.module_path chk) =
      some (eng.serialize a) := by rw [hsnd1]; simp
  have hr1 : (c.store eng u chk a fs).2.readFault (c.module_path chk) = none := by
    rw [hsnd1]; exact hr
  have hs1 : (c.store eng u chk a fs).2.statFault (c.module_path chk) = none := by
    rw [hsnd1]; exact hs
  have hm1 : (c.store eng u chk a fs).2.mkdirFault c.latest_modules_path = none := by
    rw [hsnd1]; exact hm
  have hw1 : (c.store eng u chk a fs).2.writeFault (c.module_path chk) = none := by
    rw [hsnd1]; exact hw
  have hload1 := load_hit c eng u chk _ (eng.serialize a) a hb1 hr1 hd hs1 hfit
  have hsnd2 := store_snd_write_ok c eng u chk ((c.store eng u chk a fs).2) a2 hm1 hw1
  have hb2 : (c.store eng u chk a2 (c.store eng u chk a fs).2).2.files (c.module_path chk) =
      some (eng.serialize a2) := by rw [hsnd2]; simp
  have hr2 : (c.store eng u chk a2 (c.store eng u chk a fs).2).2.readFault
      (c.module_path chk) = none := by rw [hsnd2]; exact hr1
  have hs2 : (c.store eng u chk a2 (c.store eng u chk a fs).2).2.statFault
      (c.module_path chk) = none := by rw [hsnd2]; exact hs1
  have hload2 := load_hit c eng u chk _ (eng.serialize a2) a2 hb2 hr2 hd2 hs2 hfit2
  refine ⟨by rw [hload1], by rw [hload2], ?_⟩
  intro s hcontra
  rw [hload2] at hcontra
  simp only [Except.ok.injEq, Option.some.injEq, Prod.mk.injEq] at hcontra
  exact hne hcontra.1

/-- C1 witness at a concrete engine, cache, checksum and empty state. -/
theorem c1_round_trip_with_overwrite_witness :
    (cW.load engNat uMaxW chkW (cW.store engNat uMaxW chkW 7 emptyFs).2).1 =
      .ok (.ok (some (7, 1))) ∧
    (cW.load engNat uMaxW chkW
        (cW.store engNat uMaxW chkW 9 (cW.store engNat uMaxW chkW 7 emptyFs).2).2).1 =
      .ok (.ok (some (9, 1))) ∧
    (∀ s : Nat,
      (cW.load engNat uMaxW chkW
          (cW.store engNat uMaxW chkW 9 (cW.store engNat uMaxW chkW 7 emptyFs).2).2).1 ≠
        .ok (.ok (some (7, s)))) := by
  have h := c1_round_trip_with_overwrite cW engNat uMaxW chkW 7 9 emptyFs
    rfl rfl rfl rfl (by decide) (by decide) rfl rfl (by decide)
  exact ⟨h.1, h.2.1, h.2.2⟩

/-- C3: load on a fingerprint with no entry file returns the absent
outcome Ok(None), never an error, and the absent and error outcomes of
load never overlap. -/
theorem c3_miss_distinctness {A : Type} (c : FileSystemCache) (eng : Engine A)
    (u : Nat) (chk : Checksum) (fs : FileSystem)
    (habs : fs.files (c.module_path chk) = none) :
    (c.load eng u chk fs).1 = .ok (.ok none) ∧
    (∀ fs' : FileSystem,
      ¬ ((c.load eng u chk fs').1 = .ok (.ok none) ∧
        ∃ e : VmError, (c.load eng u chk fs').1 = .ok (.error e))) := by
  constructor
  · rw [load_miss c eng u chk fs habs]
  · rintro fs' ⟨h1, e, h2⟩
    rw [h1] at h2
    simp at h2

/-- C3 witness: load on the empty filesystem misses. -/
theorem c3_miss_distinctness_witness :
    emptyFs.files (cW.module_path chkW) = none ∧
    (cW.load engNat uMaxW chkW emptyFs).1 = .ok (.ok none) :=
  ⟨rfl, (c3_miss_distinctness cW engNat uMaxW chkW emptyFs rfl).1⟩

/-- C5: construction case analysis: path exists and is not a directory
gives ExistsButNoDirectory; exists, directory, read-only gives
ReadonlyPath; metadata unavailable gives CouldntGetMetadata; absent and
creation fails gives CouldntCreatePath; otherwise construction succeeds
and stores the base path and the resolved version data. -/
theorem c5_construction_case_analysis (wv : Nat) (path : Path) :
    (∀ ro : Bool,
      FileSystemCache.new wv path (.present ⟨false, ro⟩) = .error .existsButNoDirectory) ∧
    (FileSystemCache.new wv path (.present ⟨true, true⟩) = .error .readonlyPath) ∧
    (FileSystemCache.new wv path .presentStatFail = .error .couldntGetMetadata) ∧
    (FileSystemCache.new wv path (.absent false) = .error .couldntCreatePath) ∧
    (FileSystemCache.new wv path (.present ⟨true, false⟩) =
      .ok ⟨path, MODULE_SERIALIZATION_VERSION, wv⟩) ∧
    (FileSystemCache.new wv path (.absent true) =
      .ok ⟨path, MODULE_SERIALIZATION_VERSION, wv⟩) :=
  ⟨fun _ => rfl, rfl, rfl, rfl, rfl, rfl⟩

/-- C9: load never mutates the filesystem: no file or directory is
created, modified or deleted, whatever the outcome. -/
theorem c9_load_read_only {A : Type} (c : FileSystemCache) (eng : Engine A)
    (u : Nat) (chk : Checksum) (fs : FileSystem) :
    (c.load eng u chk fs).2 = fs :=
  load_snd c eng u chk fs

/-- C10: for an entry file whose byte length fits in usize the size
estimation returns exactly that length and does not panic; when it does
not fit, the conversion panics instead of surfacing a cache error, and
load propagates the panic. -/
theorem c10_size_conversion_totality {A : Type} (c : FileSystemCache) (eng : Engine A)
    (u : Nat) (chk : Checksum) (a : A) (fs : FileSystem) (p : Path) (b : Bytes)
    (hb : fs.files p = some b) (hst : fs.statFault p = none) :
    (b.length ≤ u → estimate_module_size u fs p = (.ok (.ok b.length), fs)) ∧
    (¬ b.length ≤ u →
      estimate_module_size u fs p = (.error ("Could not convert file size to usize"), fs) ∧
      ∀ e : VmError, (estimate_module_size u fs p).1 ≠ .ok (.error e)) ∧
    (∀ fs1 : FileSystem,
      fs1.files (c.module_path chk) = some b →
      fs1.readFault (c.module_path chk) = none →
      eng.deserialize b = .ok a →
      fs1.statFault (c.module_path chk) = none →
      ¬ b.length ≤ u →
      (c.load eng u chk fs1).1 = .error ("Could not convert file size to usize")) ∧
    (∀ fs1 : FileSystem,
      fs1.mkdirFault c.latest_modules_path = none →
      fs1.writeFault (c.module_path chk) = none →
      fs1.statFault (c.module_path chk) = none →
      ¬ (eng.serialize a).length ≤ u →
      (c.store eng u chk a fs1).1 = .error ("Could not convert file size to usize")) := by
  refine ⟨?_, ?_, ?_, ?_⟩
  · intro hfit
    simp [estimate_module_size, statLen, hst, hb, hfit]
  · intro hbig
    constructor
    · simp [estimate_module_size, statLen, hst, hb, hbig]
    · intro e
      simp [estimate_module_size, statLen, hst, hb, hbig]
  · intro fs1 hb1 hr1 hd1 hs1 hbig
    rw [load_panic c eng u chk fs1 b a hb1 hr1 hd1 hs1 hbig]
  · intro fs1 hm1 hw1 hs1 hbig
    exact store_panic c eng u chk fs1 a hm1 hw1 hs1 hbig

/-- C2 counterexample: two runs of load that differ only in the
platform-specific text of the underlying io error produce different
cache error values, so the raw operating-system error string is
propagated verbatim into the error value, contrary to the claim. -/
theorem c2_os_error_leak_counterexample :
    (cW.load engNat uMaxW chkW (fsPerm ("Permission denied, os error 13"))).1 ≠
      (cW.load engNat uMaxW chkW (fsPerm ("Permission denied, os error 7"))).1 := by
  intro h
  have h13 : (cW.load engNat uMaxW chkW (fsPerm ("Permission denied, os error 13"))).1 =
      .ok (.error (VmError.cacheErr
        ("Error opening module file: Permission denied, os error 13"))) := rfl
  have h7 : (cW.load engNat uMaxW chkW (fsPerm ("Permission denied, os error 7"))).1 =
      .ok (.error (VmError.cacheErr
        ("Error opening module file: Permission denied, os error 7"))) := rfl
  rw [h13, h7] at h
  simp only [Except.ok.injEq, Except.error.injEq, VmError.cacheErr.injEq] at h
  exact absurd h (by decide)

/-- C2 amended: the deletion-failure, directory-creation-failure and
metadata-failure cache errors carry fixed platform-independent
descriptions, but the open-failure, decode-failure and write-failure
cache errors embed the formatted text of the underlying error, so raw
operating-system error strings do reach those error values. -/
theorem c2_deterministic_errors_amended :
    (∀ (c : FileSystemCache) (chk : Checksum) (fs : FileSystem) (b : Bytes) (e : IoError),
      fs.files (c.module_path chk) = some b →
      fs.removeFault (c.module_path chk) = some e →
      (c.remove chk fs).1 = .error (VmError.cacheErr ("Error deleting module from disk"))) ∧
    (∀ (A : Type) (c : FileSystemCache) (eng : Engine A) (u : Nat) (chk : Checksum)
      (a : A) (fs : FileSystem) (e : IoError),
      fs.mkdirFault c.latest_modules_path = some e →
      (c.store eng u chk a fs).1 =
        .ok (.error (VmError.cacheErr ("Error creating modules directory")))) ∧
    (∀ (A : Type) (c : FileSystemCache) (eng : Engine A) (u : Nat) (chk : Checksum)
      (a : A) (fs : FileSystem) (b : Bytes) (e : IoError),
      fs.files (c.module_path chk) = some b →
      fs.readFault (c.module_path chk) = none →
      eng.deserialize b = .ok a →
      fs.statFault (c.module_path chk) = some e →
      (c.load eng u chk fs).1 =
        .ok (.error (VmError.cacheErr ("Error getting file metadata")))) ∧
    (∀ (A : Type) (c : FileSystemCache) (eng : Engine A) (u : Nat) (chk : Checksum)
      (fs : FileSystem) (b : Bytes) (e : IoError),
      fs.files (c.module_path chk) = some b →
      fs.readFault (c.module_path chk) = some e →
      e.kind ≠ .notFound →
      (c.load eng u chk fs).1 =
        .ok (.error (VmError.cacheErr (("Error opening module file: ") ++ e.msg)))) ∧
    (∀ (A : Type) (c : FileSystemCache) (eng : Engine A) (u : Nat) (chk : Checksum)
      (fs : FileSystem) (b : Bytes) (m : String),
      fs.files (c.module_path chk) = some b →
      fs.readFault (c.module_path chk) = none →
      eng.deserialize b = .error m →
      (c.load eng u chk fs).1 =
        .ok (.error (VmError.cacheErr (("Error deserializing module: ") ++ m)))) ∧
    (∀ (A : Type) (c : FileSystemCache) (eng : Engine A) (u : Nat) (chk : Checksum)
      (a : A) (fs : FileSystem) (e : IoError),
      fs.mkdirFault c.latest_modules_path = none →
      fs.writeFault (c.module_path chk) = some e →
      (c.store eng u chk a fs).1 =
        .ok (.error (VmError.cacheErr (("Error writing module to disk: ") ++ e.msg)))) := by
  refine ⟨?_, ?_, ?_, ?_, ?_, ?_⟩
  · intro c chk fs b e h1 h2
    rw [remove_fail c chk fs b e h1 h2]
  · intro A c eng u chk a fs e h1
    rw [store_mkdirFail c eng u chk fs a e h1]
  · intro A c eng u chk a fs b e h1 h2 h3 h4
    rw [load_statFail c eng u chk fs b a e h1 h2 h3 h4]
  · intro A c eng u chk fs b e h1 h2 h3
    rw [load_openFail c eng u chk fs b e h1 h2 h3]
  · intro A c eng u chk fs b m h1 h2 h3
    rw [load_decodeFail c eng u chk fs b m h1 h2 h3]
  · intro A c eng u chk a fs e h1 h2
    rw [store_writeFail c eng u chk fs a e h1 h2]

/-- C2 amended witness: a concrete deletion failure yields the fixed
description and a concrete open failure embeds the io error text. -/
theorem c2_deterministic_errors_amended_witness :
    (fsDel ("os text A")).files (cW.module_path chkW) = some ([7] : Bytes) ∧
    (cW.remove chkW (fsDel ("os text A"))).1 =
      .error (VmError.cacheErr ("Error deleting module from disk")) ∧
    (cW.load engNat uMaxW chkW (fsPerm ("os text A"))).1 =
      .ok (.error (VmError.cacheErr ("Error opening module file: os text A"))) := by
  refine ⟨rfl, ?_, ?_⟩
  · exact c2_deterministic_errors_amended.1 cW chkW (fsDel ("os text A")) [7]
      ⟨.other, "os text A"⟩ rfl rfl
  · exact c2_deterministic_errors_amended.2.2.2.1 Nat cW engNat uMaxW chkW
      (fsPerm ("os text A")) [7] ⟨.permissionDenied, "os text A"⟩ rfl rfl (by decide)

/-- C4: the entry file path is exactly
base_path/(serialization-version)-wasmer(build-id)/(checksum-hex); store
writes exactly that file with exactly the serialized bytes and no
wrapper, the result of load depends only on that file, and remove
deletes exactly that file. -/
theorem c4_persisted_layout {A : Type} (c : FileSystemCache) (eng : Engine A)
    (u : Nat) (chk : Checksum) (a : A) (fs : FileSystem)
    (hm : fs.mkdirFault c.latest_modules_path = none)
    (hw : fs.writeFault (c.module_path chk) = none) :
    (c.module_path chk =
      c.base_path ++
        [c.module_serialization_version ++ "-wasmer" ++
          natToDecimal c.wasmer_module_version, chk.to_hex]) ∧
    ((c.store eng u chk a fs).2.files (c.module_path chk) = some (eng.serialize a)) ∧
    (∀ q, q ≠ c.module_path chk → (c.store eng u chk a fs).2.files q = fs.files q) ∧
    (∀ fs1 fs2 : FileSystem,
      fs1.files (c.module_path chk) = fs2.files (c.module_path chk) →
      fs1.readFault (c.module_path chk) = fs2.readFault (c.module_path chk) →
      fs1.statFault (c.module_path chk) = fs2.statFault (c.module_path chk) →
      (c.load eng u chk fs1).1 = (c.load eng u chk fs2).1) ∧
    (∀ (fs1 : FileSystem) (b : Bytes),
      fs1.files (c.module_path chk) = some b →
      fs1.removeFault (c.module_path chk) = none →
      (c.remove chk fs1).2.files (c.module_path chk) = none ∧
      ∀ q, q ≠ c.module_path chk → (c.remove chk fs1).2.files q = fs1.files q) := by
  refine ⟨?_, ?_, ?_, ?_, ?_⟩
  · simp [FileSystemCache.module_path, FileSystemCache.latest_modules_path, versionTag]
  · rw [store_snd_write_ok c eng u chk fs a hm hw]; simp
  · intro q hq
    rw [store_snd_write_ok c eng u chk fs a hm hw]
    simp [hq]
  · intro fs1 fs2 h1 h2 h3
    exact load_frame c eng u chk fs1 fs2 h1 h2 h3
  · intro fs1 b h1 h2
    rw [remove_ok c chk fs1 b h1 h2]
    exact ⟨by simp, fun q hq => by simp [hq]⟩

/-- C4 witness at the concrete cache: the layout formula and a concrete
store writing exactly the expected file. -/
theorem c4_persisted_layout_witness :
    cW.module_path chkW = [("base" : String), "v4-wasmer1", "ab"] ∧
    (cW.store engNat uMaxW chkW 7 emptyFs).2.files
      [("base" : String), "v4-wasmer1", "ab"] = some ([7] : Bytes) := by
  have h := c4_persisted_layout cW engNat uMaxW chkW 7 emptyFs rfl rfl
  refine ⟨rfl, ?_⟩
  have h2 := h.2.1
  rw [show cW.module_path chkW = [("base" : String), "v4-wasmer1", "ab"] from rfl] at h2
  exact h2

/-- C6: remove returns true and deletes the file when the entry exists
and deletion succeeds, returns false leaving the state untouched when it
does not exist, surfaces a fixed cache error when deletion fails, and
after a successful store a first remove yields true and a second false. -/
theorem c6_idempotent_removal {A : Type} (c : FileSystemCache) (eng : Engine A)
    (u : Nat) (chk : Checksum) (a : A) (fs : FileSystem)
    (hm : fs.mkdirFault c.latest_modules_path = none)
    (hw : fs.writeFault (c.module_path chk) = none)
    (hrm : fs.removeFault (c.module_path chk) = none) :
    (∀ fs1 : FileSystem, fs1.files (c.module_path chk) = none →
      c.remove chk fs1 = (.ok false, fs1)) ∧
    (∀ (fs1 : FileSystem) (b : Bytes),
      fs1.files (c.module_path chk) = some b →
      fs1.removeFault (c.module_path chk) = none →
      (c.remove chk fs1).1 = .ok true ∧
      (c.remove chk fs1).2.files (c.module_path chk) = none) ∧
    (∀ (fs1 : FileSystem) (b : Bytes) (e : IoError),
      fs1.files (c.module_path chk) = some b →
      fs1.removeFault (c.module_path chk) = some e →
      (c.remove chk fs1).1 =
        .error (VmError.cacheErr ("Error deleting module from disk"))) ∧
    ((c.remove chk (c.store eng u chk a fs).2).1 = .ok true ∧
      (c.remove chk (c.remove chk (c.store eng u chk a fs).2).2).1 = .ok false) := by
  refine ⟨?_, ?_, ?_, ?_⟩
  · intro fs1 h1
    exact remove_absent c chk fs1 h1
  · intro fs1 b h1 h2
    rw [remove_ok c chk fs1 b h1 h2]
    exact ⟨rfl, by simp⟩
  · intro fs1 b e h1 h2
    rw [remove_fail c chk fs1 b e h1 h2]
  · have hsnd1 := store_snd_write_ok c eng u chk fs a hm hw
    have hb1 : (c.store eng u chk a fs).2.files (c.module_path chk) =
        some (eng.serialize a) := by rw [hsnd1]; simp
    have hrm1 : (c.store eng u chk a fs).2.removeFault (c.module_path chk) = none := by
      rw [hsnd1]; exact hrm
    have hrem := remove_ok c chk ((c.store eng u chk a fs).2) (eng.serialize a) hb1 hrm1
    constructor
    · rw [hrem]
    · rw [hrem]
      rw [remove_absent c chk _ (by simp)]

/-- C6 witness: store then remove twice on the concrete cache. -/
theorem c6_idempotent_removal_witness :
    (cW.remove chkW (cW.store engNat uMaxW chkW 7 emptyFs).2).1 = .ok true ∧
    (cW.remove chkW (cW.remove chkW (cW.store engNat uMaxW chkW 7 emptyFs).2).2).1 =
      .ok false ∧
    cW.remove chkW emptyFs = (.ok false, emptyFs) := by
  have h := c6_idempotent_removal cW engNat uMaxW chkW 7 emptyFs rfl rfl rfl
  exact ⟨h.2.2.2.1, h.2.2.2.2, h.1 emptyFs rfl⟩

/-- C7: two cache handles over the same base path whose version tags
differ in the serialization version or in the wasmer module version use
different versioned directories and disjoint entry files, and store or
remove through one never changes what load through the other observes. -/
theorem c7_version_isolation {A : Type} (c1 c2 : FileSystemCache) (eng : Engine A)
    (u : Nat) (hb : c1.base_path = c2.base_path)
    (htag : c1.module_serialization_version ≠ c2.module_serialization_version ∨
      c1.wasmer_module_version ≠ c2.wasmer_module_version) :
    (c1.latest_modules_path ≠ c2.latest_modules_path) ∧
    (∀ f g : Checksum, c1.module_path f ≠ c2.module_path g) ∧
    (∀ (f g : Checksum) (a : A) (fs : FileSystem),
      (c2.load eng u g (c1.store eng u f a fs).2).1 = (c2.load eng u g fs).1) ∧
    (∀ (f g : Checksum) (fs : FileSystem),
      (c2.load eng u g (c1.remove f fs).2).1 = (c2.load eng u g fs).1) := by
  refine ⟨latest_modules_path_ne c1 c2 hb htag, module_path_ne c1 c2 hb htag, ?_, ?_⟩
  · intro f g a fs
    obtain ⟨hfiles, hrf, _, _, hsf, _⟩ := store_frame c1 eng u f fs a
    exact load_frame c2 eng u g _ fs
      (hfiles _ (Ne.symm (module_path_ne c1 c2 hb htag f g)))
      (congrFun hrf _) (congrFun hsf _)
  · intro f g fs
    obtain ⟨hfiles, _, hrf, _, _, hsf, _⟩ := remove_frame c1 f fs
    exact load_frame c2 eng u g _ fs
      (hfiles _ (Ne.symm (module_path_ne c1 c2 hb htag f g)))
      (congrFun hrf _) (congrFun hsf _)

/-- C7 witness: two concrete handles differing in the wasmer module
version over the same base path. -/
theorem c7_version_isolation_witness :
    cW.base_path = FileSystemCache.base_path ⟨["base"], "v4", 2⟩ ∧
    cW.latest_modules_path ≠
      FileSystemCache.latest_modules_path ⟨["base"], "v4", 2⟩ ∧
    ((⟨["base"], "v4", 2⟩ : FileSystemCache).load engNat uMaxW chkW
        (cW.store engNat uMaxW chkW 7 emptyFs).2).1 =
      ((⟨["base"], "v4", 2⟩ : FileSystemCache).load engNat uMaxW chkW emptyFs).1 := by
  have h := c7_version_isolation cW ⟨["base"], "v4", 2⟩ engNat uMaxW rfl
    (Or.inr (by decide))
  exact ⟨rfl, h.1, h.2.2.1 chkW chkW 7 emptyFs⟩

/-- C8: the size a successful store returns is the byte length of the
entry file just written, and a subsequent load of the unmodified entry
reports the same size. -/
theorem c8_size_estimate_sanity {A : Type} (c : FileSystemCache) (eng : Engine A)
    (u : Nat) (chk : Checksum) (a : A) (fs : FileSystem)
    (hm : fs.mkdirFault c.latest_modules_path = none)
    (hw : fs.writeFault (c.module_path chk) = none)
    (hr : fs.readFault (c.module_path chk) = none)
    (hs : fs.statFault (c.module_path chk) = none)
    (hfit : (eng.serialize a).length ≤ u)
    (hd : eng.deserialize (eng.serialize a) = .ok a) :
    ((c.store eng u chk a fs).2.files (c.module_path chk) = some (eng.serialize a)) ∧
    ((c.store eng u chk a fs).1 = .ok (.ok (eng.serialize a).length)) ∧
    ((c.load eng u chk (c.store eng u chk a fs).2).1 =
      .ok (.ok (some (a, (eng.serialize a).length)))) := by
  have hsnd1 := store_snd_write_ok c eng u chk fs a hm hw
  have hb1 : (c.store eng u chk a fs).2.files (c.module_path chk) =
      some (eng.serialize a) := by rw [hsnd1]; simp
  have hr1 : (c.store eng u chk a fs).2.readFault (c.module_path chk) = none := by
    rw [hsnd1]; exact hr
  have hs1 : (c.store eng u chk a fs).2.statFault (c.module_path chk) = none := by
    rw [hsnd1]; exact hs
  refine ⟨hb1, ?_, ?_⟩
  · rw [store_ok c eng u chk fs a hm hw hs hfit]
  · rw [load_hit c eng u chk _ (eng.serialize a) a hb1 hr1 hd hs1 hfit]

/-- C8 witness at the concrete cache and engine. -/
theorem c8_size_estimate_sanity_witness :
    (cW.store engNat uMaxW chkW 7 emptyFs).1 = .ok (.ok 1) ∧
    (cW.load engNat uMaxW chkW (cW.store engNat uMaxW chkW 7 emptyFs).2).1 =
      .ok (.ok (some (7, 1))) := by
  have h := c8_size_estimate_sanity cW engNat uMaxW chkW 7 emptyFs
    rfl rfl rfl rfl (by decide) rfl
  exact ⟨h.2.1, h.2.2⟩

/-- C10 witness on a one-byte entry with usize bounds 1 and 0. -/
theorem c10_size_conversion_totality_witness :
    fsFile.files (cW.module_path chkW) = some ([7] : Bytes) ∧
    estimate_module_size 1 fsFile (cW.module_path chkW) = (.ok (.ok 1), fsFile) ∧
    estimate_module_size 0 fsFile (cW.module_path chkW) =
      (.error ("Could not convert file size to usize"), fsFile) ∧
    (cW.load engNat 0 chkW fsFile).1 = .error ("Could not convert file size to usize") := by
  refine ⟨rfl, ?_, ?_, ?_⟩
  · exact (c10_size_conversion_totality cW engNat 1 chkW 7 fsFile
      (cW.module_path chkW) [7] rfl rfl).1 (by decide)
  · exact ((c10_size_conversion_totality cW engNat 0 chkW 7 fsFile
      (cW.module_path chkW) [7] rfl rfl).2.1 (by decide)).1
  · exact (c10_size_conversion_totality cW engNat 0 chkW 7 fsFile
      (cW.module_path chkW) [7] rfl rfl).2.2.1 fsFile rfl rfl rfl rfl (by decide)

end CosmwasmVm
